import Mathlib

/-!
Verification of the order-placement core of the `django-graphql` shop backend.

The development shallowly embeds `src/shop/graphql.py` (the GraphQL mutations)
together with the relational model of `src/shop/models.py`:

* Database tables are association lists `List (Nat × row)` keyed by Django's
  auto-increment primary keys; each table carries its next id in `State`.
* `DecimalField(max_digits=10, decimal_places=2)` values (prices, totals) are
  embedded as integers counting cents: Python's `Decimal` arithmetic on
  2-decimal-place values multiplied by `int` quantities and summed is exact,
  so scaled-integer arithmetic models it faithfully.
* Every `mutate` method of `shop/graphql.py` becomes a function
  `State → ... → State × Except Err Nat`.  The returned `State` is the
  database state after the call whether it raised or not: Django runs these
  mutations in autocommit mode with no `transaction.atomic` wrapper, so any
  row already written before an exception stays written.  (In the actual
  code of `CreateOrder.mutate` every `GraphQLError` is raised during the
  validation loop, before the first write; the embedding makes that fact
  provable rather than assuming it.)
* `ForeignKey(..., on_delete=CASCADE)` relations of `models.py` are embedded
  in the delete mutations: deleting a `Product` removes its `Review` and
  `OrderItem` rows, deleting a `Store` removes its products and their
  dependent rows.
* Concurrency: a second, small-step embedding of `CreateOrder.mutate`
  (`mkAttempt` / `stepAttempt` / `runTwo`) exposes every database access of
  one order-placement attempt (`Product.objects.get`, `Order.objects.create`,
  `OrderItem.objects.create` + `product.save()`) as one atomic step, so that
  interleavings of two concurrent requests can be examined.
-/

deriving instance DecidableEq for Except

namespace Shop

/-- Row of `shop.models.Product` (fields `models.py:16`): `price` in cents. -/
structure Product where
  name : String
  store_id : Nat
  price : Int
  stock : Int
  description : String
deriving DecidableEq

/-- Row of `shop.models.Store` (`models.py:8`). -/
structure Store where
  name : String
  owner_id : Nat
deriving DecidableEq

/-- Row of `shop.models.Order` (`models.py:27`); `total` in cents. -/
structure Order where
  user_id : Nat
  total : Int
deriving DecidableEq

/-- Row of `shop.models.OrderItem` (`models.py:36`); `price` is the stored
line total in cents. -/
structure OrderItem where
  order_id : Nat
  product_id : Nat
  quantity : Int
  price : Int
deriving DecidableEq

/-- Row of `shop.models.Review` (`models.py:46`). -/
structure Review where
  product_id : Nat
  user_id : Nat
  rating : Int
  comment : String
deriving DecidableEq

/-- The relational database: one association list per table, keyed by the
auto-increment primary key, plus the next key for each table. -/
structure State where
  stores : List (Nat × Store)
  products : List (Nat × Product)
  orders : List (Nat × Order)
  order_items : List (Nat × OrderItem)
  reviews : List (Nat × Review)
  next_store_id : Nat
  next_product_id : Nat
  next_order_id : Nat
  next_order_item_id : Nat
  next_review_id : Nat
deriving DecidableEq

/-- The `GraphQLError`s raised by `shop/graphql.py`, by message:
`"Authentication required"`, `"... not found"`, `"You don't have
permission ..."`, `"Price must be positive"`, `"Stock must be positive"`,
`"Rating must be between 1 and 5"`, `"You already reviewed this product"`,
`"Order must have at least one item"`, `"Quantity must be positive"`,
`"Not enough stock for ..."`. -/
inductive Err where
  | authRequired
  | storeNotFound (id : Nat)
  | productNotFound (id : Nat)
  | reviewNotFound (id : Nat)
  | permissionDenied
  | invalidPrice
  | invalidStock
  | invalidRating
  | alreadyReviewed
  | emptyCart
  | invalidQuantity
  | insufficientStock (product_id : Nat)
deriving DecidableEq

/-- `CreateProductInput` (`graphql.py:113`). -/
structure CreateProductInput where
  name : String
  store_id : Nat
  price : Int
  stock : Int
  description : String
deriving DecidableEq

/-- `UpdateProductInput` (`graphql.py:121`): all fields optional. -/
structure UpdateProductInput where
  name : Option String
  price : Option Int
  stock : Option Int
  description : Option String
deriving DecidableEq

/-- `CreateReviewInput` (`graphql.py:128`). -/
structure CreateReviewInput where
  product_id : Nat
  rating : Int
  comment : String
deriving DecidableEq

/-- `OrderItemInput` (`graphql.py:134`): one cart line. -/
structure OrderItemInput where
  product_id : Nat
  quantity : Int
deriving DecidableEq

/-- `Model.objects.get(id=id)`: the first row with the given key. -/
def dbGet {α : Type} : List (Nat × α) → Nat → Option α
  | [], _ => none
  | e :: rest, id => if e.1 = id then some e.2 else dbGet rest id

/-- `row.save()` on a fetched row: overwrite the row(s) with the given key. -/
def dbSet {α : Type} : List (Nat × α) → Nat → α → List (Nat × α)
  | [], _, _ => []
  | e :: rest, id, v =>
    if e.1 = id then (id, v) :: dbSet rest id v else e :: dbSet rest id v

/-- `CreateStore.mutate` (`graphql.py:270`). -/
def createStore (s : State) (user : Option Nat) (name : String) :
    State × Except Err Nat :=
  match user with
  | none => (s, .error .authRequired)
  | some uid =>
    let id := s.next_store_id
    ({ s with stores := s.stores ++ [(id, ⟨name, uid⟩)],
              next_store_id := id + 1 }, .ok id)

/-- `UpdateStore.mutate` (`graphql.py:289`). -/
def updateStore (s : State) (user : Option Nat) (id : Nat) (name : String) :
    State × Except Err Nat :=
  match user with
  | none => (s, .error .authRequired)
  | some uid =>
    match dbGet s.stores id with
    | none => (s, .error (.storeNotFound id))
    | some st =>
      if st.owner_id ≠ uid then (s, .error .permissionDenied)
      else ({ s with stores := dbSet s.stores id ⟨name, st.owner_id⟩ }, .ok id)

/-- `DeleteStore.mutate` (`graphql.py:314`) with the `on_delete=CASCADE`
semantics of `models.py`: the store's products disappear, and with them
their reviews and order items. -/
def deleteStore (s : State) (user : Option Nat) (id : Nat) :
    State × Except Err Nat :=
  match user with
  | none => (s, .error .authRequired)
  | some uid =>
    match dbGet s.stores id with
    | none => (s, .error (.storeNotFound id))
    | some st =>
      if st.owner_id ≠ uid then (s, .error .permissionDenied)
      else
        let pids := (s.products.filter (fun e => e.2.store_id == id)).map (fun e => e.1)
        ({ s with
            stores := s.stores.filter (fun e => !(e.1 == id)),
            products := s.products.filter (fun e => !(e.2.store_id == id)),
            reviews := s.reviews.filter (fun e => !(pids.contains e.2.product_id)),
            order_items := s.order_items.filter (fun e => !(pids.contains e.2.product_id)) },
         .ok id)

/-- `CreateProduct.mutate` (`graphql.py:337`). -/
def createProduct (s : State) (user : Option Nat) (input : CreateProductInput) :
    State × Except Err Nat :=
  match user with
  | none => (s, .error .authRequired)
  | some uid =>
    match dbGet s.stores input.store_id with
    | none => (s, .error (.storeNotFound input.store_id))
    | some st =>
      if st.owner_id ≠ uid then (s, .error .permissionDenied)
      else if input.price < 0 then (s, .error .invalidPrice)
      else if input.stock < 0 then (s, .error .invalidStock)
      else
        let id := s.next_product_id
        ({ s with
            products := s.products ++
              [(id, ⟨input.name, input.store_id, input.price, input.stock, input.description⟩)],
            next_product_id := id + 1 }, .ok id)

/-- Tests whether an optional decimal/int argument is present and negative
(the `input.price < 0` / `input.stock < 0` guards of `UpdateProduct.mutate`,
which only run when the field was supplied). -/
def negOpt (o : Option Int) : Bool :=
  match o with
  | some v => decide (v < 0)
  | none => false

/-- `UpdateProduct.mutate` (`graphql.py:373`): each supplied field is copied
onto the row, after the price and stock sign checks; the row is saved once
at the end, so a failed check leaves the database untouched. -/
def updateProduct (s : State) (user : Option Nat) (id : Nat)
    (input : UpdateProductInput) : State × Except Err Nat :=
  match user with
  | none => (s, .error .authRequired)
  | some uid =>
    match dbGet s.products id with
    | none => (s, .error (.productNotFound id))
    | some p =>
      match dbGet s.stores p.store_id with
      | none => (s, .error (.storeNotFound p.store_id))
      | some st =>
        if st.owner_id ≠ uid then (s, .error .permissionDenied)
        else if negOpt input.price then (s, .error .invalidPrice)
        else if negOpt input.stock then (s, .error .invalidStock)
        else
          let p' : Product :=
            ⟨input.name.getD p.name, p.store_id, input.price.getD p.price,
             input.stock.getD p.stock, input.description.getD p.description⟩
          ({ s with products := dbSet s.products id p' }, .ok id)

/-- `DeleteProduct.mutate` (`graphql.py:409`) with `on_delete=CASCADE`:
reviews and order items referencing the product are deleted with it. -/
def deleteProduct (s : State) (user : Option Nat) (id : Nat) :
    State × Except Err Nat :=
  match user with
  | none => (s, .error .authRequired)
  | some uid =>
    match dbGet s.products id with
    | none => (s, .error (.productNotFound id))
    | some p =>
      match dbGet s.stores p.store_id with
      | none => (s, .error (.storeNotFound p.store_id))
      | some st =>
        if st.owner_id ≠ uid then (s, .error .permissionDenied)
        else
          ({ s with
              products := s.products.filter (fun e => !(e.1 == id)),
              reviews := s.reviews.filter (fun e => !(e.2.product_id == id)),
              order_items := s.order_items.filter (fun e => !(e.2.product_id == id)) },
           .ok id)

/-- `CreateReview.mutate` (`graphql.py:432`). -/
def createReview (s : State) (user : Option Nat) (input : CreateReviewInput) :
    State × Except Err Nat :=
  match user with
  | none => (s, .error .authRequired)
  | some uid =>
    match dbGet s.products input.product_id with
    | none => (s, .error (.productNotFound input.product_id))
    | some _p =>
      if input.rating < 1 ∨ 5 < input.rating then (s, .error .invalidRating)
      else if s.reviews.any
          (fun e => e.2.product_id == input.product_id && e.2.user_id == uid) then
        (s, .error .alreadyReviewed)
      else
        let id := s.next_review_id
        ({ s with
            reviews := s.reviews ++
              [(id, ⟨input.product_id, uid, input.rating, input.comment⟩)],
            next_review_id := id + 1 }, .ok id)

/-- `UpdateReview.mutate` (`graphql.py:466`): the rating range check runs
only when a rating is supplied. -/
def updateReview (s : State) (user : Option Nat) (id : Nat)
    (rating : Option Int) (comment : Option String) : State × Except Err Nat :=
  match user with
  | none => (s, .error .authRequired)
  | some uid =>
    match dbGet s.reviews id with
    | none => (s, .error (.reviewNotFound id))
    | some r =>
      if r.user_id ≠ uid then (s, .error .permissionDenied)
      else
        match rating with
        | some rt =>
          if rt < 1 ∨ 5 < rt then (s, .error .invalidRating)
          else
            let r' : Review := ⟨r.product_id, r.user_id, rt, comment.getD r.comment⟩
            ({ s with reviews := dbSet s.reviews id r' }, .ok id)
        | none =>
          let r' : Review := ⟨r.product_id, r.user_id, r.rating, comment.getD r.comment⟩
          ({ s with reviews := dbSet s.reviews id r' }, .ok id)

/-- `DeleteReview.mutate` (`graphql.py:497`). -/
def deleteReview (s : State) (user : Option Nat) (id : Nat) :
    State × Except Err Nat :=
  match user with
  | none => (s, .error .authRequired)
  | some uid =>
    match dbGet s.reviews id with
    | none => (s, .error (.reviewNotFound id))
    | some r =>
      if r.user_id ≠ uid then (s, .error .permissionDenied)
      else ({ s with reviews := s.reviews.filter (fun e => !(e.1 == id)) }, .ok id)

/-- One entry of the `order_items_data` list built by the validation loop of
`CreateOrder.mutate` (`graphql.py:547`): the fetched product object (a
snapshot of the row as read), the requested quantity, and the line total
`product.price * item.quantity`. -/
structure OrderItemData where
  product_id : Nat
  product : Product
  quantity : Int
  price : Int
deriving DecidableEq

/-- The validation loop of `CreateOrder.mutate` (`graphql.py:532`): for each
cart line, fetch the product (`ProductNotFound` if missing), reject
`quantity <= 0` (`InvalidQuantity`), reject `product.stock < quantity`
(`InsufficientStock`).  All reads are against the same state `s` — the loop
performs no writes, so every line sees the pre-attempt stock. -/
def validateItems (s : State) : List OrderItemInput → Except Err (List OrderItemData)
  | [] => .ok []
  | it :: rest =>
    match dbGet s.products it.product_id with
    | none => .error (.productNotFound it.product_id)
    | some p =>
      if it.quantity ≤ 0 then .error .invalidQuantity
      else if p.stock < it.quantity then .error (.insufficientStock it.product_id)
      else
        match validateItems s rest with
        | .error e => .error e
        | .ok ds => .ok (⟨it.product_id, p, it.quantity, p.price * it.quantity⟩ :: ds)

/-- The running `total` accumulated by the validation loop
(`graphql.py:529`, `graphql.py:545`). -/
def orderTotal (data : List OrderItemData) : Int :=
  (data.map (fun d => d.price)).sum

/-- The write loop of `CreateOrder.mutate` (`graphql.py:560`): for each
validated line, insert the `OrderItem` row, then `product.stock -= quantity;
product.save()`.  Crucially the saved stock is computed from the *snapshot*
fetched during validation (`d.product.stock`), not from the current row —
`save()` writes the stale Python object back. -/
def applyItems (oid : Nat) : State → List OrderItemData → State
  | s, [] => s
  | s, d :: rest =>
    applyItems oid
      { s with
          order_items := s.order_items ++
            [(s.next_order_item_id, ⟨oid, d.product_id, d.quantity, d.price⟩)],
          next_order_item_id := s.next_order_item_id + 1,
          products := dbSet s.products d.product_id
            ⟨d.product.name, d.product.store_id, d.product.price,
             d.product.stock - d.quantity, d.product.description⟩ }
      rest

/-- The product-table effect of the write loop in isolation: the successive
stale-snapshot stock writes of `applyItems`, used to reason about final
stock values. -/
def writeProducts : List (Nat × Product) → List OrderItemData → List (Nat × Product)
  | ps, [] => ps
  | ps, d :: rest =>
    writeProducts (dbSet ps d.product_id
      ⟨d.product.name, d.product.store_id, d.product.price,
       d.product.stock - d.quantity, d.product.description⟩) rest

/-- `CreateOrder.mutate` (`graphql.py:520`): authentication check, empty-cart
check, validation loop, then `Order.objects.create` followed by the write
loop.  No transaction wrapper exists in the source; the embedding reflects
that every error is raised before the first write. -/
def createOrder (s : State) (user : Option Nat) (items : List OrderItemInput) :
    State × Except Err Nat :=
  match user with
  | none => (s, .error .authRequired)
  | some uid =>
    if items.isEmpty then (s, .error .emptyCart)
    else
      match validateItems s items with
      | .error e => (s, .error e)
      | .ok data =>
        let oid := s.next_order_id
        let s1 := { s with orders := s.orders ++ [(oid, ⟨uid, orderTotal data⟩)],
                           next_order_id := oid + 1 }
        (applyItems oid s1 data, .ok oid)

/-- The state right after `Order.objects.create` (`graphql.py:554`): the
new order row is inserted, the write loop has not yet run. -/
def orderState (s : State) (uid : Nat) (data : List OrderItemData) : State :=
  { s with orders := s.orders ++ [(s.next_order_id, ⟨uid, orderTotal data⟩)],
           next_order_id := s.next_order_id + 1 }

/-- The full mutation surface of the schema (`class Mutation`,
`graphql.py:576`): exactly these ten operations — in particular no update or
delete mutation for orders. -/
inductive Op where
  | createStore (user : Option Nat) (name : String)
  | updateStore (user : Option Nat) (id : Nat) (name : String)
  | deleteStore (user : Option Nat) (id : Nat)
  | createProduct (user : Option Nat) (input : CreateProductInput)
  | updateProduct (user : Option Nat) (id : Nat) (input : UpdateProductInput)
  | deleteProduct (user : Option Nat) (id : Nat)
  | createReview (user : Option Nat) (input : CreateReviewInput)
  | updateReview (user : Option Nat) (id : Nat) (rating : Option Int) (comment : Option String)
  | deleteReview (user : Option Nat) (id : Nat)
  | createOrder (user : Option Nat) (items : List OrderItemInput)

/-- Dispatch an operation of the schema to its embedded mutation. -/
def mutate (s : State) : Op → State × Except Err Nat
  | .createStore u n => createStore s u n
  | .updateStore u id n => updateStore s u id n
  | .deleteStore u id => deleteStore s u id
  | .createProduct u input => createProduct s u input
  | .updateProduct u id input => updateProduct s u id input
  | .deleteProduct u id => deleteProduct s u id
  | .createReview u input => createReview s u input
  | .updateReview u id rt c => updateReview s u id rt c
  | .deleteReview u id => deleteReview s u id
  | .createOrder u items => createOrder s u items

/-- Small-step view of one `CreateOrder.mutate` attempt: where the attempt
stands between two database accesses. `validating` holds the cart lines not
yet fetched and the `order_items_data` built so far; `writing` holds the
lines not yet written. -/
inductive Phase where
  | validating (remaining : List OrderItemInput) (data : List OrderItemData)
  | writing (oid : Nat) (remaining : List OrderItemData)
  | committed (oid : Nat)
  | aborted (e : Err)
deriving DecidableEq

/-- One in-flight `CreateOrder.mutate` request. -/
structure Attempt where
  uid : Nat
  phase : Phase
deriving DecidableEq

/-- Start of `CreateOrder.mutate`: the authentication and empty-cart checks
(`graphql.py:521`), which touch no shared state. -/
def mkAttempt (user : Option Nat) (items : List OrderItemInput) : Attempt :=
  match user with
  | none => ⟨0, .aborted .authRequired⟩
  | some uid =>
    if items.isEmpty then ⟨uid, .aborted .emptyCart⟩
    else ⟨uid, .validating items []⟩

/-- One atomic database access of `CreateOrder.mutate`, in source order:
a validation step is one `Product.objects.get` plus the purely local
quantity/stock checks against the fetched value; finishing validation is the
`Order.objects.create`; a write step is one `OrderItem.objects.create`
together with the `product.save()` of the stale snapshot.  Django runs the
mutation in autocommit mode, so between any two of these accesses another
request's access may be serviced. -/
def stepAttempt (s : State) (a : Attempt) : State × Attempt :=
  match a.phase with
  | .validating remaining data =>
    match remaining with
    | [] =>
      let oid := s.next_order_id
      ({ s with orders := s.orders ++ [(oid, ⟨a.uid, orderTotal data⟩)],
                next_order_id := oid + 1 },
       { a with phase := .writing oid data })
    | it :: rest =>
      match dbGet s.products it.product_id with
      | none => (s, { a with phase := .aborted (.productNotFound it.product_id) })
      | some p =>
        if it.quantity ≤ 0 then (s, { a with phase := .aborted .invalidQuantity })
        else if p.stock < it.quantity then
          (s, { a with phase := .aborted (.insufficientStock it.product_id) })
        else
          let data' := data ++ [⟨it.product_id, p, it.quantity, p.price * it.quantity⟩]
          (s, { a with phase := .validating rest data' })
  | .writing oid remaining =>
    match remaining with
    | [] => (s, { a with phase := .committed oid })
    | d :: rest =>
      let iid := s.next_order_item_id
      let p' : Product := ⟨d.product.name, d.product.store_id, d.product.price,
                           d.product.stock - d.quantity, d.product.description⟩
      ({ s with
           order_items := s.order_items ++ [(iid, ⟨oid, d.product_id, d.quantity, d.price⟩)],
           next_order_item_id := iid + 1,
           products := dbSet s.products d.product_id p' },
       { a with phase := .writing oid rest })
  | .committed _ => (s, a)
  | .aborted _ => (s, a)

/-- Run two concurrent attempts under a schedule: `true` lets attempt `a`
perform its next database access, `false` lets attempt `b`. -/
def runTwo : State → Attempt → Attempt → List Bool → State × Attempt × Attempt
  | s, a, b, [] => (s, a, b)
  | s, a, b, c :: rest =>
    if c then
      let sa := stepAttempt s a
      runTwo sa.1 sa.2 b rest
    else
      let sb := stepAttempt s b
      runTwo sb.1 a sb.2 rest

/-- Non-negative stock for every product row: the §3 invariant
`stock never goes negative`. -/
def StockInv (s : State) : Prop :=
  ∀ e ∈ s.products, 0 ≤ e.2.stock

instance (s : State) : Decidable (StockInv s) := by
  unfold StockInv; infer_instance

/-- The operations that write some product's `stock` field:
`CreateOrder.mutate`'s reservation decrement, and `UpdateProduct.mutate`
when the input carries a `stock` value (`graphql.py:392`). -/
def writesStock : Op → Bool
  | .createOrder _ _ => true
  | .updateProduct _ _ input => input.stock.isSome
  | _ => false

/-- The operations whose `on_delete=CASCADE` semantics can remove
`OrderItem` rows: `DeleteProduct.mutate` and `DeleteStore.mutate`. -/
def deletesCascade : Op → Bool
  | .deleteProduct _ _ => true
  | .deleteStore _ _ => true
  | _ => false

/-- A demo catalog row: product 1, price 1.00, stock 1. -/
def demoProduct : Product := ⟨"widget", 1, 100, 1, ""⟩

/-- A demo database: store 1 owned by user 1, product 1 with one unit
in stock, no orders yet. -/
def s0 : State := ⟨[(1, ⟨"shop", 1⟩)], [(1, demoProduct)], [], [], [], 2, 2, 1, 1, 1⟩

/-- A demo database that already holds a committed order: order 1 by user 2
with one item (product 1, quantity 1, line total 1.00). -/
def s1cx : State :=
  ⟨[(1, ⟨"shop", 1⟩)], [(1, demoProduct)], [(1, ⟨2, 100⟩)], [(1, ⟨1, 1, 1, 100⟩)], [],
   2, 2, 2, 2, 1⟩

/-- First of the two racing single-line orders for the last unit of
product 1, placed by user 2. -/
def attemptA : Attempt := mkAttempt (some 2) [⟨1, 1⟩]

/-- Second racing order for the same last unit, placed by user 3. -/
def attemptB : Attempt := mkAttempt (some 3) [⟨1, 1⟩]

/-- The interleaving in which both attempts read stock before either
writes: A's validation read, B's validation read, then each finishes
(order insert, item insert + stock write, commit). -/
def raceSched : List Bool := [true, false, true, true, true, false, false, false]

/-! ### Association-list lemmas -/

theorem dbGet_nil {α : Type} (id : Nat) : dbGet ([] : List (Nat × α)) id = none := rfl

theorem dbGet_cons {α : Type} (x : Nat × α) (xs : List (Nat × α)) (id : Nat) :
    dbGet (x :: xs) id = if x.1 = id then some x.2 else dbGet xs id := rfl

theorem dbSet_nil {α : Type} (id : Nat) (v : α) : dbSet ([] : List (Nat × α)) id v = [] := rfl

theorem dbSet_cons {α : Type} (x : Nat × α) (xs : List (Nat × α)) (id : Nat) (v : α) :
    dbSet (x :: xs) id v =
      if x.1 = id then (id, v) :: dbSet xs id v else x :: dbSet xs id v := rfl

theorem dbGet_append {α : Type} {ps : List (Nat × α)} (l : List (Nat × α)) {id : Nat}
    {p : α} (h : dbGet ps id = some p) : dbGet (ps ++ l) id = some p := by
  induction ps with
  | nil => rw [dbGet_nil] at h; cases h
  | cons x xs ih =>
    rw [List.cons_append, dbGet_cons]
    rw [dbGet_cons] at h
    by_cases hx : x.1 = id
    · simpa [hx] using h
    · rw [if_neg hx] at h ⊢
      exact ih h

theorem dbGet_append_fresh {α : Type} {ps : List (Nat × α)} {id : Nat} {v : α}
    (h : ∀ e ∈ ps, e.1 ≠ id) : dbGet (ps ++ [(id, v)]) id = some v := by
  induction ps with
  | nil => simp [dbGet]
  | cons x xs ih =>
    have hx : x.1 ≠ id := h x (List.mem_cons_self x xs)
    rw [List.cons_append, dbGet_cons, if_neg hx]
    exact ih (fun e he => h e (List.mem_cons_of_mem x he))

theorem dbGet_mem {α : Type} {ps : List (Nat × α)} {id : Nat} {p : α}
    (h : dbGet ps id = some p) : (id, p) ∈ ps := by
  induction ps with
  | nil => rw [dbGet_nil] at h; cases h
  | cons x xs ih =>
    rw [dbGet_cons] at h
    by_cases hx : x.1 = id
    · rw [if_pos hx] at h
      refine List.mem_cons.mpr (Or.inl ?_)
      cases x
      simp_all
    · rw [if_neg hx] at h
      exact List.mem_cons_of_mem x (ih h)

theorem mem_dbSet {α : Type} {ps : List (Nat × α)} {id : Nat} {v : α} {e : Nat × α}
    (h : e ∈ dbSet ps id v) : e ∈ ps ∨ e = (id, v) := by
  induction ps with
  | nil => rw [dbSet_nil] at h; cases h
  | cons x xs ih =>
    rw [dbSet_cons] at h
    by_cases hx : x.1 = id
    · rw [if_pos hx] at h
      rcases List.mem_cons.mp h with h' | h'
      · right; exact h'
      · rcases ih h' with h'' | h''
        · left; exact List.mem_cons_of_mem x h''
        · right; exact h''
    · rw [if_neg hx] at h
      rcases List.mem_cons.mp h with h' | h'
      · left; exact List.mem_cons.mpr (Or.inl h')
      · rcases ih h' with h'' | h''
        · left; exact List.mem_cons_of_mem x h''
        · right; exact h''

theorem dbGet_dbSet_self {α : Type} {ps : List (Nat × α)} {id : Nat} {p : α} (v : α)
    (h : dbGet ps id = some p) : dbGet (dbSet ps id v) id = some v := by
  induction ps with
  | nil => rw [dbGet_nil] at h; cases h
  | cons x xs ih =>
    rw [dbGet_cons] at h
    rw [dbSet_cons]
    by_cases hx : x.1 = id
    · rw [if_pos hx, dbGet_cons, if_pos rfl]
    · rw [if_neg hx] at h
      rw [if_neg hx, dbGet_cons, if_neg hx]
      exact ih h

theorem dbGet_dbSet_ne {α : Type} {ps : List (Nat × α)} {id id' : Nat} (v : α)
    (h : id' ≠ id) : dbGet (dbSet ps id v) id' = dbGet ps id' := by
  induction ps with
  | nil => rw [dbSet_nil]
  | cons x xs ih =>
    rw [dbSet_cons, dbGet_cons]
    by_cases hx : x.1 = id
    · have hid : ¬ (id = id') := fun hh => h hh.symm
      rw [if_pos hx, dbGet_cons, if_neg hid, ih]
      have hx' : x.1 ≠ id' := by rw [hx]; exact hid
      rw [if_neg hx']
    · rw [if_neg hx, dbGet_cons]
      by_cases hx' : x.1 = id'
      · rw [if_pos hx', if_pos hx']
      · rw [if_neg hx', if_neg hx', ih]

theorem nodup_keys_eq {α : Type} {ps : List (Nat × α)} (hnd : (ps.map Prod.fst).Nodup)
    {id : Nat} {p p' : α} (h1 : (id, p) ∈ ps) (h2 : (id, p') ∈ ps) : p = p' := by
  induction ps with
  | nil => cases h1
  | cons x xs ih =>
    simp only [List.map_cons, List.nodup_cons] at hnd
    rcases List.mem_cons.mp h1 with h1' | h1' <;> rcases List.mem_cons.mp h2 with h2' | h2'
    · rw [← h1'] at h2'
      exact (congrArg Prod.snd h2').symm
    · exfalso
      apply hnd.1
      rw [← h1']
      exact List.mem_map.mpr ⟨(id, p'), h2', rfl⟩
    · exfalso
      apply hnd.1
      rw [← h2']
      exact List.mem_map.mpr ⟨(id, p), h1', rfl⟩
    · exact ih hnd.2 h1' h2'

/-! ### Validation-loop lemmas -/

theorem validateItems_head_notfound {s : State} {it : OrderItemInput}
    (rest : List OrderItemInput) (hp : dbGet s.products it.product_id = none) :
    validateItems s (it :: rest) = .error (.productNotFound it.product_id) := by
  simp only [validateItems, hp]

theorem validateItems_head_qty {s : State} {it : OrderItemInput} {p : Product}
    (rest : List OrderItemInput) (hp : dbGet s.products it.product_id = some p)
    (hq : it.quantity ≤ 0) :
    validateItems s (it :: rest) = .error .invalidQuantity := by
  simp only [validateItems, hp, if_pos hq]

theorem validateItems_head_stock {s : State} {it : OrderItemInput} {p : Product}
    (rest : List OrderItemInput) (hp : dbGet s.products it.product_id = some p)
    (hq : ¬ it.quantity ≤ 0) (hs : p.stock < it.quantity) :
    validateItems s (it :: rest) = .error (.insufficientStock it.product_id) := by
  simp only [validateItems, hp, if_neg hq, if_pos hs]

theorem validateItems_cons_err {s : State} {it : OrderItemInput} {p : Product}
    {rest : List OrderItemInput} {e : Err}
    (hp : dbGet s.products it.product_id = some p)
    (hq : ¬ it.quantity ≤ 0) (hs : ¬ p.stock < it.quantity)
    (hr : validateItems s rest = .error e) :
    validateItems s (it :: rest) = .error e := by
  simp only [validateItems, hp, if_neg hq, if_neg hs, hr]

theorem validateItems_cons_ok {s : State} {it : OrderItemInput} {p : Product}
    {rest : List OrderItemInput} {ds : List OrderItemData}
    (hp : dbGet s.products it.product_id = some p)
    (hq : ¬ it.quantity ≤ 0) (hs : ¬ p.stock < it.quantity)
    (hr : validateItems s rest = .ok ds) :
    validateItems s (it :: rest) =
      .ok (⟨it.product_id, p, it.quantity, p.price * it.quantity⟩ :: ds) := by
  simp only [validateItems, hp, if_neg hq, if_neg hs, hr]

theorem validateItems_ok_spec {s : State} :
    ∀ {items : List OrderItemInput} {data : List OrderItemData},
    validateItems s items = .ok data →
    ∀ d ∈ data, dbGet s.products d.product_id = some d.product ∧
      0 < d.quantity ∧ d.quantity ≤ d.product.stock ∧
      d.price = d.product.price * d.quantity := by
  intro items
  induction items with
  | nil =>
    intro data h d hd
    simp only [validateItems] at h
    cases h
    cases hd
  | cons it rest ih =>
    intro data h d hd
    cases hp : dbGet s.products it.product_id with
    | none => rw [validateItems_head_notfound rest hp] at h; exact Except.noConfusion h
    | some p =>
      by_cases hq : it.quantity ≤ 0
      · rw [validateItems_head_qty rest hp hq] at h; exact Except.noConfusion h
      · by_cases hs : p.stock < it.quantity
        · rw [validateItems_head_stock rest hp hq hs] at h; exact Except.noConfusion h
        · cases hr : validateItems s rest with
          | error e =>
            rw [validateItems_cons_err hp hq hs hr] at h
            exact Except.noConfusion h
          | ok ds =>
            rw [validateItems_cons_ok hp hq hs hr] at h
            cases h
            rcases List.mem_cons.mp hd with hd' | hd'
            · subst hd'
              exact ⟨hp, by show 0 < it.quantity; omega,
                by show it.quantity ≤ p.stock; omega, rfl⟩
            · exact ih hr d hd'

theorem validateItems_qty_err {s : State} :
    ∀ (pre : List OrderItemInput) (it0 : OrderItemInput) (post : List OrderItemInput),
    it0.quantity ≤ 0 →
    ∃ e, validateItems s (pre ++ it0 :: post) = .error e ∧
      ((∀ it ∈ pre, ∃ p, dbGet s.products it.product_id = some p ∧
          0 < it.quantity ∧ it.quantity ≤ p.stock) →
       (dbGet s.products it0.product_id).isSome = true →
       e = .invalidQuantity) := by
  intro pre
  induction pre with
  | nil =>
    intro it0 post h0
    rw [List.nil_append]
    cases hp : dbGet s.products it0.product_id with
    | none =>
      refine ⟨.productNotFound it0.product_id, validateItems_head_notfound post hp, ?_⟩
      intro _ habs
      simp at habs
    | some p =>
      exact ⟨.invalidQuantity, validateItems_head_qty post hp h0, fun _ _ => rfl⟩
  | cons it pre' ih =>
    intro it0 post h0
    rw [List.cons_append]
    cases hp : dbGet s.products it.product_id with
    | none =>
      refine ⟨.productNotFound it.product_id,
        validateItems_head_notfound (pre' ++ it0 :: post) hp, ?_⟩
      intro hpre _
      exfalso
      obtain ⟨p, hp', _, _⟩ := hpre it (List.mem_cons_self it pre')
      rw [hp] at hp'
      cases hp'
    | some p =>
      by_cases hq : it.quantity ≤ 0
      · exact ⟨.invalidQuantity,
          validateItems_head_qty (pre' ++ it0 :: post) hp hq, fun _ _ => rfl⟩
      · by_cases hs : p.stock < it.quantity
        · refine ⟨.insufficientStock it.product_id,
            validateItems_head_stock (pre' ++ it0 :: post) hp hq hs, ?_⟩
          intro hpre _
          exfalso
          obtain ⟨p', hp', _, hs'⟩ := hpre it (List.mem_cons_self it pre')
          rw [hp] at hp'
          cases hp'
          omega
        · obtain ⟨e, he, hcond⟩ := ih it0 post h0
          refine ⟨e, validateItems_cons_err hp hq hs he, ?_⟩
          intro hpre hex
          exact hcond (fun x hx => hpre x (List.mem_cons_of_mem it hx)) hex

theorem validateItems_uniform {s : State} {pid : Nat} {p : Product}
    (hp : dbGet s.products pid = some p) :
    ∀ (items : List OrderItemInput),
    (∀ it ∈ items, it.product_id = pid ∧ 0 < it.quantity ∧ it.quantity ≤ p.stock) →
    validateItems s items =
      .ok (items.map (fun it => ⟨pid, p, it.quantity, p.price * it.quantity⟩)) := by
  intro items
  induction items with
  | nil => intro _; simp [validateItems]
  | cons it rest ih =>
    intro hall
    obtain ⟨hpid, hq, hs⟩ := hall it (List.mem_cons_self it rest)
    have hp' : dbGet s.products it.product_id = some p := by rw [hpid]; exact hp
    rw [List.map_cons,
      validateItems_cons_ok hp' (by omega) (by omega)
        (ih (fun x hx => hall x (List.mem_cons_of_mem it hx)))]
    rw [hpid]

/-! ### Write-loop lemmas -/

theorem applyItems_spec (oid : Nat) :
    ∀ (data : List OrderItemData) (s : State),
    ∃ extra : List (Nat × OrderItem),
      (applyItems oid s data).order_items = s.order_items ++ extra ∧
      extra.map (fun e => e.2.price) = data.map (fun d => d.price) ∧
      (∀ e ∈ extra, s.next_order_item_id ≤ e.1 ∧ e.2.order_id = oid ∧
        ∃ d ∈ data, e.2 = OrderItem.mk oid d.product_id d.quantity d.price) ∧
      (applyItems oid s data).orders = s.orders ∧
      (applyItems oid s data).stores = s.stores ∧
      (applyItems oid s data).reviews = s.reviews ∧
      (applyItems oid s data).next_order_id = s.next_order_id ∧
      (applyItems oid s data).products = writeProducts s.products data := by
  intro data
  induction data with
  | nil =>
    intro s
    exact ⟨[], by simp [applyItems, writeProducts]⟩
  | cons d rest ih =>
    intro s
    obtain ⟨extra, h1, h2, h3, h4, h5, h6, h7, h8⟩ :=
      ih { s with
            order_items := s.order_items ++
              [(s.next_order_item_id, ⟨oid, d.product_id, d.quantity, d.price⟩)],
            next_order_item_id := s.next_order_item_id + 1,
            products := dbSet s.products d.product_id
              ⟨d.product.name, d.product.store_id, d.product.price,
               d.product.stock - d.quantity, d.product.description⟩ }
    refine ⟨(s.next_order_item_id, ⟨oid, d.product_id, d.quantity, d.price⟩) :: extra,
      ?_, ?_, ?_, ?_, ?_, ?_, ?_, ?_⟩
    · rw [applyItems.eq_2, h1, List.append_assoc, List.singleton_append]
    · simpa using h2
    · intro e he
      rcases List.mem_cons.mp he with he' | he'
      · subst he'
        exact ⟨le_refl _, rfl, d, List.mem_cons_self d rest, rfl⟩
      · obtain ⟨hle, hoid, d', hd', he2⟩ := h3 e he'
        refine ⟨by simpa using Nat.le_of_succ_le hle, hoid, d',
          List.mem_cons_of_mem d hd', he2⟩
    · rw [applyItems.eq_2]; simpa using h4
    · rw [applyItems.eq_2]; simpa using h5
    · rw [applyItems.eq_2]; simpa using h6
    · rw [applyItems.eq_2]; simpa using h7
    · rw [applyItems.eq_2, writeProducts]; simpa using h8

theorem mem_writeProducts :
    ∀ (data : List OrderItemData) (ps : List (Nat × Product)) (e : Nat × Product),
    e ∈ writeProducts ps data → e ∈ ps ∨
      ∃ d ∈ data, e = (d.product_id,
        ⟨d.product.name, d.product.store_id, d.product.price,
         d.product.stock - d.quantity, d.product.description⟩) := by
  intro data
  induction data with
  | nil => intro ps e he; left; simpa [writeProducts] using he
  | cons d rest ih =>
    intro ps e he
    simp only [writeProducts] at he
    rcases ih _ e he with h | ⟨d', hd', he'⟩
    · rcases mem_dbSet h with h' | h'
      · left; exact h'
      · right; exact ⟨d, List.mem_cons_self d rest, h'⟩
    · right; exact ⟨d', List.mem_cons_of_mem d hd', he'⟩

theorem writeProducts_uniform {pid : Nat} {p : Product} :
    ∀ (ds : List OrderItemData) (ps : List (Nat × Product)) (q : Product)
      (dl : OrderItemData),
    (∀ d ∈ ds, d.product_id = pid ∧ d.product = p) →
    dbGet ps pid = some q → ds.getLast? = some dl →
    dbGet (writeProducts ps ds) pid =
      some ⟨p.name, p.store_id, p.price, p.stock - dl.quantity, p.description⟩ := by
  intro ds
  induction ds with
  | nil => intro ps q dl _ _ hl; cases hl
  | cons d rest ih =>
    intro ps q dl hall hget hl
    obtain ⟨hpid, hprod⟩ := hall d (List.mem_cons_self d rest)
    cases rest with
    | nil =>
      rw [List.getLast?_singleton] at hl
      injection hl with hdl
      subst hdl
      simp only [writeProducts]
      rw [hpid, hprod]
      exact dbGet_dbSet_self _ hget
    | cons d2 rest2 =>
      simp only [writeProducts]
      rw [hpid, hprod]
      refine ih _ _ dl (fun x hx => hall x (List.mem_cons_of_mem d hx))
        (dbGet_dbSet_self _ hget) ?_
      simpa [List.getLast?_cons_cons] using hl

/-! ### Shape of a successful order placement -/

theorem orderState_orders (s : State) (uid : Nat) (data : List OrderItemData) :
    (orderState s uid data).orders =
      s.orders ++ [(s.next_order_id, ⟨uid, orderTotal data⟩)] := rfl

theorem orderState_order_items (s : State) (uid : Nat) (data : List OrderItemData) :
    (orderState s uid data).order_items = s.order_items := rfl

theorem orderState_products (s : State) (uid : Nat) (data : List OrderItemData) :
    (orderState s uid data).products = s.products := rfl

theorem orderState_next_item (s : State) (uid : Nat) (data : List OrderItemData) :
    (orderState s uid data).next_order_item_id = s.next_order_item_id := rfl

theorem createOrder_ok {s : State} {uid : Nat} {items : List OrderItemInput}
    {s' : State} {oid : Nat}
    (h : createOrder s (some uid) items = (s', .ok oid)) :
    oid = s.next_order_id ∧
    ∃ data, validateItems s items = .ok data ∧
      s' = applyItems s.next_order_id (orderState s uid data) data := by
  simp only [createOrder] at h
  cases hne : items.isEmpty with
  | true =>
    simp only [hne, if_true] at h
    injection h with h1 h2
    exact Except.noConfusion h2
  | false =>
    simp only [hne] at h
    cases hv : validateItems s items with
    | error e =>
      simp only [hv] at h
      injection h with h1 h2
      exact Except.noConfusion h2
    | ok data =>
      simp only [hv] at h
      injection h with h1 h2
      injection h2 with h3
      exact ⟨h3.symm, data, rfl, h1.symm⟩

theorem createOrder_err {s : State} {user : Option Nat} {items : List OrderItemInput}
    {s' : State} {e : Err} (h : createOrder s user items = (s', .error e)) : s' = s := by
  cases user with
  | none =>
    simp only [createOrder] at h
    injection h with h1 h2
    exact h1.symm
  | some uid =>
    simp only [createOrder] at h
    cases hne : items.isEmpty with
    | true =>
      simp only [hne, if_true] at h
      injection h with h1 h2
      exact h1.symm
    | false =>
      simp only [hne] at h
      cases hv : validateItems s items with
      | error e' =>
        simp only [hv] at h
        injection h with h1 h2
        exact h1.symm
      | ok data =>
        simp only [hv] at h
        injection h with h1 h2
        exact Except.noConfusion h2

/-! ### Claim theorems -/

/-- Claim C4: every abort path of `placeOrder` (`CreateOrder.mutate`) — any
error, including `EmptyCart`, `InvalidQuantity`, `ProductNotFound` and
`InsufficientStock` — leaves every product's stock and the order and
order-item tables (indeed the whole database state) exactly as they were
before the attempt: no partial stock decrement and no partial order row is
persisted. -/
theorem c4_abort_no_effects (s : State) (user : Option Nat)
    (items : List OrderItemInput) (s' : State) (e : Err)
    (h : createOrder s user items = (s', .error e)) : s' = s :=
  createOrder_err h

/-- Witness for C4: a cart asking for five units of the one-unit demo
product aborts with `InsufficientStock` and returns the database unchanged. -/
theorem c4_abort_no_effects_witness :
    createOrder s0 (some 2) [⟨1, 5⟩] =
      (s0, .error (.insufficientStock 1)) ∧ (createOrder s0 (some 2) [⟨1, 5⟩]).1 = s0 :=
  ⟨by decide, c4_abort_no_effects s0 (some 2) [⟨1, 5⟩]
    (createOrder s0 (some 2) [⟨1, 5⟩]).1 (.insufficientStock 1) (by decide)⟩

/-- Claim C10: for every unauthenticated caller and every cart (even an
invalid or empty one), `CreateOrder.mutate` fails with the authentication
error before any validation or persistence step, leaving the database
unchanged — the check is performed inside the mutation itself
(`graphql.py:521`). -/
theorem c10_auth_required (s : State) (items : List OrderItemInput) :
    createOrder s none items = (s, .error .authRequired) := rfl

/-- Claim C1 (refuted, code bug): a single `placeOrder` call whose cart
lists product 1 (stock 1) on two lines of one unit each is accepted: the
order commits with a total reserved quantity of 2 > 1, because each
validation read sees the pre-attempt stock and the two stale-snapshot stock
writes overwrite each other.  The sum of successfully reserved quantities
exceeds the initial stock S = 1. -/
theorem c1_oversell :
    dbGet s0.products 1 = some demoProduct ∧ demoProduct.stock = 1 ∧
    (createOrder s0 (some 2) [⟨1, 1⟩, ⟨1, 1⟩]).2 = .ok 1 ∧
    ((createOrder s0 (some 2) [⟨1, 1⟩, ⟨1, 1⟩]).1.order_items.map
      (fun e => e.2.quantity)).sum = 2 ∧
    dbGet (createOrder s0 (some 2) [⟨1, 1⟩, ⟨1, 1⟩]).1.products 1 =
      some ⟨"widget", 1, 100, 0, ""⟩ := by decide

/-- Claim C2 (refuted, code bug): under the interleaving in which both
requests perform their validation read before either write, two
simultaneous `placeOrder` calls for the last unit of product 1 (stock 1)
BOTH commit — neither receives `InsufficientStock` — because the code's
stock check and decrement are a separate read (`Product.objects.get`)
followed by a write (`product.save()`), not a single atomic operation. -/
theorem c2_race :
    dbGet s0.products 1 = some demoProduct ∧ demoProduct.stock = 1 ∧
    (runTwo s0 attemptA attemptB raceSched).2.1.phase = Phase.committed 1 ∧
    (runTwo s0 attemptA attemptB raceSched).2.2.phase = Phase.committed 2 ∧
    dbGet (runTwo s0 attemptA attemptB raceSched).1.products 1 =
      some ⟨"widget", 1, 100, 0, ""⟩ := by decide

/-- Claim C5 counterexample: a cart whose only line has quantity 0 but
references a product id that does not exist fails with `ProductNotFound`,
not `InvalidQuantity` — the product lookup precedes the quantity check in
the validation loop (`graphql.py:533` before `graphql.py:538`). -/
theorem c5_counterexample :
    (⟨99, 0⟩ : OrderItemInput).quantity ≤ 0 ∧
    createOrder s0 (some 2) [⟨99, 0⟩] = (s0, .error (.productNotFound 99)) ∧
    Err.productNotFound 99 ≠ Err.invalidQuantity := by decide

/-- Claim C5 as amended: a cart containing a line with quantity ≤ 0 always
fails with zero persisted rows and zero stock change; the error is
`InvalidQuantity` provided that line's product exists and every earlier
line passes its own lookup, quantity and stock checks (otherwise the
earlier failure — `ProductNotFound` or `InsufficientStock` — is reported
instead). -/
theorem c5_amended (s : State) (uid : Nat) (pre post : List OrderItemInput)
    (it0 : OrderItemInput) (h0 : it0.quantity ≤ 0) :
    ∃ e, createOrder s (some uid) (pre ++ it0 :: post) = (s, .error e) ∧
      ((∀ it ∈ pre, ∃ p, dbGet s.products it.product_id = some p ∧
          0 < it.quantity ∧ it.quantity ≤ p.stock) →
       (dbGet s.products it0.product_id).isSome = true →
       e = .invalidQuantity) := by
  obtain ⟨e, he, hcond⟩ := validateItems_qty_err pre it0 post h0
  refine ⟨e, ?_, hcond⟩
  have hne : (pre ++ it0 :: post).isEmpty = false := by
    cases pre <;> simp
  simp [createOrder, hne, he]

/-- Witness for the amended C5: the single-line cart (product 1, quantity
0) on the demo database fails with `InvalidQuantity` and no state change. -/
theorem c5_amended_witness :
    ∃ e, createOrder s0 (some 2) ([] ++ (⟨1, 0⟩ : OrderItemInput) :: []) =
        (s0, .error e) ∧
      ((∀ it ∈ ([] : List OrderItemInput), ∃ p,
          dbGet s0.products it.product_id = some p ∧
          0 < it.quantity ∧ it.quantity ≤ p.stock) →
       (dbGet s0.products (⟨1, 0⟩ : OrderItemInput).product_id).isSome = true →
       e = .invalidQuantity) :=
  c5_amended s0 2 [] [] ⟨1, 0⟩ (by decide)

theorem getLast?_map_eq {α β : Type} (f : α → β) :
    ∀ (l : List α), (l.map f).getLast? = l.getLast?.map f := by
  intro l
  induction l with
  | nil => rfl
  | cons a l2 ih =>
    cases l2 with
    | nil => rfl
    | cons b l3 => simpa [List.getLast?_cons_cons] using ih

theorem applyItems_products (oid : Nat) :
    ∀ (data : List OrderItemData) (s : State),
    (applyItems oid s data).products = writeProducts s.products data := by
  intro data
  induction data with
  | nil => intro s; rfl
  | cons d rest ih =>
    intro s
    rw [applyItems.eq_2, ih, writeProducts]

/-- Claim C9: a single `placeOrder` call whose cart lists the same product
on several lines (each with a positive quantity not exceeding the initial
stock) passes every stock check — each validation read sees the pre-attempt
stock — and commits; the product's final stock is the initial stock minus
the quantity of the LAST such line only, the earlier duplicate decrements
having been overwritten by the stale-snapshot saves. -/
theorem c9_duplicate_lines (s : State) (uid pid : Nat) (p : Product)
    (items : List OrderItemInput) (itl : OrderItemInput)
    (hp : dbGet s.products pid = some p)
    (hlen : 2 ≤ items.length)
    (hall : ∀ it ∈ items, it.product_id = pid ∧ 0 < it.quantity ∧ it.quantity ≤ p.stock)
    (hlast : items.getLast? = some itl) :
    ∃ s', createOrder s (some uid) items = (s', .ok s.next_order_id) ∧
      dbGet s'.products pid =
        some ⟨p.name, p.store_id, p.price, p.stock - itl.quantity, p.description⟩ := by
  have hv := validateItems_uniform hp items hall
  have hne : items.isEmpty = false := by
    cases items with
    | nil => simp at hlen
    | cons a l => rfl
  have hsucc : (createOrder s (some uid) items).2 = .ok s.next_order_id := by
    simp only [createOrder, hne, Bool.false_eq_true, if_false, hv]
  have hpair : createOrder s (some uid) items =
      ((createOrder s (some uid) items).1, .ok s.next_order_id) := by
    rw [← hsucc]
  obtain ⟨hne2, data, hv2, hs2⟩ := createOrder_ok hpair
  rw [hv] at hv2
  injection hv2 with hdata
  subst hdata
  refine ⟨(createOrder s (some uid) items).1, hpair, ?_⟩
  rw [hs2, applyItems_products]
  refine writeProducts_uniform _ _ p ⟨pid, p, itl.quantity, p.price * itl.quantity⟩ ?_ hp ?_
  · intro d hd
    obtain ⟨it, _, hit⟩ := List.mem_map.mp hd
    rw [← hit]
    exact ⟨rfl, rfl⟩
  · rw [getLast?_map_eq, hlast]
    rfl

/-- Witness for C9: on the demo database (product 1, stock 1), the
duplicate cart with two one-unit lines for product 1 commits and the final
stock is 1 - 1 = 0 (not -1). -/
theorem c9_duplicate_lines_witness :
    ∃ s', createOrder s0 (some 2) [⟨1, 1⟩, ⟨1, 1⟩] = (s', .ok s0.next_order_id) ∧
      dbGet s'.products 1 = some ⟨"widget", 1, 100, 0, ""⟩ :=
  c9_duplicate_lines s0 2 1 demoProduct [⟨1, 1⟩, ⟨1, 1⟩] ⟨1, 1⟩
    (by decide) (by decide) (by decide) (by decide)

/-- Claim C3: for every committed order, the stored `total` equals the sum
of its items' stored `price` fields, and each item's `price` equals the
product's unit price as read at placement time multiplied by the item's
quantity — exact arithmetic on scaled integers, mirroring Python's exact
`Decimal` computation `product.price * item.quantity` (`graphql.py:544`). -/
theorem c3_total_correct (s : State) (uid : Nat) (items : List OrderItemInput)
    (s' : State) (oid : Nat)
    (hoid : ∀ e ∈ s.orders, e.1 < s.next_order_id)
    (hfk : ∀ e ∈ s.order_items, e.2.order_id < s.next_order_id)
    (h : createOrder s (some uid) items = (s', .ok oid)) :
    ∃ o, dbGet s'.orders oid = some o ∧
      o.total = ((s'.order_items.filter (fun e => e.2.order_id == oid)).map
        (fun e => e.2.price)).sum ∧
      ∀ e ∈ s'.order_items, e.2.order_id = oid →
        ∃ p, dbGet s.products e.2.product_id = some p ∧
          e.2.price = p.price * e.2.quantity := by
  obtain ⟨hoe, data, hv, hs'⟩ := createOrder_ok h
  subst hoe
  obtain ⟨extra, h1, h2, h3, h4, h5, h6, h7, h8⟩ :=
    applyItems_spec s.next_order_id data (orderState s uid data)
  have horders : s'.orders = s.orders ++ [(s.next_order_id, ⟨uid, orderTotal data⟩)] := by
    rw [hs', h4, orderState_orders]
  have hitems : s'.order_items = s.order_items ++ extra := by
    rw [hs', h1, orderState_order_items]
  refine ⟨⟨uid, orderTotal data⟩, ?_, ?_, ?_⟩
  · rw [horders]
    exact dbGet_append_fresh (fun e he => by have := hoid e he; omega)
  · show orderTotal data = _
    rw [hitems, List.filter_append]
    have hfl : s.order_items.filter (fun e => e.2.order_id == s.next_order_id) = [] := by
      rw [List.filter_eq_nil_iff]
      intro e he
      have := hfk e he
      simp only [beq_iff_eq]
      omega
    have hfr : extra.filter (fun e => e.2.order_id == s.next_order_id) = extra := by
      rw [List.filter_eq_self]
      intro e he
      have := (h3 e he).2.1
      simp only [beq_iff_eq]
      omega
    rw [hfl, hfr, List.nil_append, h2]
    rfl
  · intro e he heq
    rw [hitems] at he
    rcases List.mem_append.mp he with he' | he'
    · exfalso
      have := hfk e he'
      omega
    · obtain ⟨_, _, d, hd, he2⟩ := h3 e he'
      obtain ⟨hpd, _, _, hpr⟩ := validateItems_ok_spec hv d hd
      refine ⟨d.product, ?_, ?_⟩
      · rw [he2]
        exact hpd
      · rw [he2]
        exact hpr

/-- Witness for C3: the two-line demo order: total 200 cents equals the sum
of the two stored line prices, each 100 = 100 × 1. -/
theorem c3_total_correct_witness :
    ∃ o, dbGet (createOrder s0 (some 2) [⟨1, 1⟩, ⟨1, 1⟩]).1.orders 1 = some o ∧
      o.total = (((createOrder s0 (some 2) [⟨1, 1⟩, ⟨1, 1⟩]).1.order_items.filter
        (fun e => e.2.order_id == 1)).map (fun e => e.2.price)).sum ∧
      ∀ e ∈ (createOrder s0 (some 2) [⟨1, 1⟩, ⟨1, 1⟩]).1.order_items,
        e.2.order_id = 1 →
        ∃ p, dbGet s0.products e.2.product_id = some p ∧
          e.2.price = p.price * e.2.quantity :=
  c3_total_correct s0 2 [⟨1, 1⟩, ⟨1, 1⟩] (createOrder s0 (some 2) [⟨1, 1⟩, ⟨1, 1⟩]).1 1
    (by decide) (by decide) (by decide)

/-! ### Frame lemmas: what each mutation leaves untouched -/

theorem createStore_frame (s : State) (u : Option Nat) (n : String) :
    (createStore s u n).1.products = s.products ∧
    (createStore s u n).1.orders = s.orders ∧
    (createStore s u n).1.order_items = s.order_items := by
  cases u <;> exact ⟨rfl, rfl, rfl⟩

theorem updateStore_frame (s : State) (u : Option Nat) (id : Nat) (n : String) :
    (updateStore s u id n).1.products = s.products ∧
    (updateStore s u id n).1.orders = s.orders ∧
    (updateStore s u id n).1.order_items = s.order_items := by
  unfold updateStore
  repeat' split
  all_goals exact ⟨rfl, rfl, rfl⟩

theorem createReview_frame (s : State) (u : Option Nat) (input : CreateReviewInput) :
    (createReview s u input).1.products = s.products ∧
    (createReview s u input).1.orders = s.orders ∧
    (createReview s u input).1.order_items = s.order_items := by
  unfold createReview
  repeat' split
  all_goals exact ⟨rfl, rfl, rfl⟩

theorem updateReview_frame (s : State) (u : Option Nat) (id : Nat)
    (rt : Option Int) (c : Option String) :
    (updateReview s u id rt c).1.products = s.products ∧
    (updateReview s u id rt c).1.orders = s.orders ∧
    (updateReview s u id rt c).1.order_items = s.order_items := by
  unfold updateReview
  repeat' split
  all_goals exact ⟨rfl, rfl, rfl⟩

theorem deleteReview_frame (s : State) (u : Option Nat) (id : Nat) :
    (deleteReview s u id).1.products = s.products ∧
    (deleteReview s u id).1.orders = s.orders ∧
    (deleteReview s u id).1.order_items = s.order_items := by
  unfold deleteReview
  repeat' split
  all_goals exact ⟨rfl, rfl, rfl⟩

theorem deleteStore_frame (s : State) (u : Option Nat) (id : Nat) :
    (deleteStore s u id).1.orders = s.orders ∧
    (∀ e ∈ (deleteStore s u id).1.products, e ∈ s.products) ∧
    (∀ e ∈ (deleteStore s u id).1.order_items, e ∈ s.order_items) := by
  unfold deleteStore
  repeat' split
  all_goals refine ⟨rfl, ?_, ?_⟩ <;> intro e he <;>
    first | exact he | exact List.mem_of_mem_filter he

theorem deleteProduct_frame (s : State) (u : Option Nat) (id : Nat) :
    (deleteProduct s u id).1.orders = s.orders ∧
    (∀ e ∈ (deleteProduct s u id).1.products, e ∈ s.products) ∧
    (∀ e ∈ (deleteProduct s u id).1.order_items, e ∈ s.order_items) := by
  unfold deleteProduct
  repeat' split
  all_goals refine ⟨rfl, ?_, ?_⟩ <;> intro e he <;>
    first | exact he | exact List.mem_of_mem_filter he

theorem createProduct_frame (s : State) (u : Option Nat) (input : CreateProductInput) :
    ((createProduct s u input).1.products = s.products ∨
      ((createProduct s u input).1.products = s.products ++
        [(s.next_product_id,
          ⟨input.name, input.store_id, input.price, input.stock, input.description⟩)] ∧
        0 ≤ input.stock)) ∧
    (createProduct s u input).1.orders = s.orders ∧
    (createProduct s u input).1.order_items = s.order_items := by
  unfold createProduct
  repeat' split
  all_goals refine ⟨?_, rfl, rfl⟩
  all_goals try exact Or.inl rfl
  rename_i hstock
  exact Or.inr ⟨rfl, by omega⟩

theorem updateProduct_frame (s : State) (u : Option Nat) (id : Nat)
    (input : UpdateProductInput) :
    ((updateProduct s u id input).1.products = s.products ∨
      (∃ p, dbGet s.products id = some p ∧
        negOpt input.price = false ∧ negOpt input.stock = false ∧
        (updateProduct s u id input).1.products = dbSet s.products id
          ⟨input.name.getD p.name, p.store_id, input.price.getD p.price,
           input.stock.getD p.stock, input.description.getD p.description⟩)) ∧
    (updateProduct s u id input).1.orders = s.orders ∧
    (updateProduct s u id input).1.order_items = s.order_items := by
  unfold updateProduct
  repeat' split
  all_goals refine ⟨?_, rfl, rfl⟩
  all_goals try exact Or.inl rfl
  rename_i p hget xst st hst hown hprice hstock
  exact Or.inr ⟨p, hget, by simpa using hprice, by simpa using hstock, rfl⟩

theorem createOrder_state (s : State) (u : Option Nat) (items : List OrderItemInput) :
    (createOrder s u items).1 = s ∨
    ∃ uid data, u = some uid ∧ validateItems s items = .ok data ∧
      (∃ extra, (createOrder s u items).1.order_items = s.order_items ++ extra ∧
        (∀ e ∈ extra, s.next_order_item_id ≤ e.1 ∧
          e.2.order_id = s.next_order_id)) ∧
      (createOrder s u items).1.orders =
        s.orders ++ [(s.next_order_id, ⟨uid, orderTotal data⟩)] ∧
      (createOrder s u items).1.products = writeProducts s.products data := by
  cases hr : (createOrder s u items).2 with
  | error e =>
    left
    have hpair : createOrder s u items = ((createOrder s u items).1, .error e) := by
      rw [← hr]
    exact createOrder_err hpair
  | ok oid =>
    right
    cases u with
    | none => simp [createOrder] at hr
    | some uid =>
      have hpair : createOrder s (some uid) items =
          ((createOrder s (some uid) items).1, .ok oid) := by
        rw [← hr]
      obtain ⟨hoe, data, hv, hs2⟩ := createOrder_ok hpair
      obtain ⟨extra, h1, h2, h3, h4, h5, h6, h7, h8⟩ :=
        applyItems_spec s.next_order_id data (orderState s uid data)
      refine ⟨uid, data, rfl, hv, ⟨extra, ?_, ?_⟩, ?_, ?_⟩
      · rw [hs2, h1, orderState_order_items]
      · intro e he
        obtain ⟨hle, hoid2, _⟩ := h3 e he
        rw [orderState_next_item] at hle
        exact ⟨hle, hoid2⟩
      · rw [hs2, h4, orderState_orders]
      · rw [hs2, applyItems_products, orderState_products]

/-- Claim C7: every product's stock is a non-negative integer and every
operation of the schema preserves that invariant; in particular
`CreateProduct.mutate` and `UpdateProduct.mutate` reject negative stock
inputs, and order placement never drives a stock below zero (each saved
value is a checked `stock - quantity ≥ 0` computed from the validated
snapshot). -/
theorem c7_stock_nonneg :
    (∀ (s : State) (op : Op), StockInv s → StockInv (mutate s op).1) ∧
    (∀ (s : State) (u : Option Nat) (input : CreateProductInput), input.stock < 0 →
      ∃ e, (mutate s (.createProduct u input)).2 = .error e) ∧
    (∀ (s : State) (u : Option Nat) (id : Nat) (input : UpdateProductInput) (v : Int),
      input.stock = some v → v < 0 →
      ∃ e, (mutate s (.updateProduct u id input)).2 = .error e) := by
  refine ⟨?_, ?_, ?_⟩
  · intro s op hinv
    cases op with
    | createStore u n =>
      intro e he
      simp only [mutate] at he
      rw [(createStore_frame s u n).1] at he
      exact hinv e he
    | updateStore u id n =>
      intro e he
      simp only [mutate] at he
      rw [(updateStore_frame s u id n).1] at he
      exact hinv e he
    | deleteStore u id =>
      intro e he
      simp only [mutate] at he
      exact hinv e ((deleteStore_frame s u id).2.1 e he)
    | createProduct u input =>
      intro e he
      simp only [mutate] at he
      rcases (createProduct_frame s u input).1 with h | ⟨h, hst⟩
      · rw [h] at he
        exact hinv e he
      · rw [h] at he
        rcases List.mem_append.mp he with h' | h'
        · exact hinv e h'
        · rcases List.mem_singleton.mp h' with rfl
          exact hst
    | updateProduct u id input =>
      intro e he
      simp only [mutate] at he
      rcases (updateProduct_frame s u id input).1 with h | ⟨p, hget, hpr, hst, h⟩
      · rw [h] at he
        exact hinv e he
      · rw [h] at he
        rcases mem_dbSet he with h' | h'
        · exact hinv e h'
        · rcases h' with rfl
          cases hsv : input.stock with
          | some v =>
            rw [hsv] at hst
            simp only [negOpt, decide_eq_false_iff_not, not_lt] at hst
            show 0 ≤ v
            exact hst
          | none =>
            show 0 ≤ p.stock
            exact hinv _ (dbGet_mem hget)
    | deleteProduct u id =>
      intro e he
      simp only [mutate] at he
      exact hinv e ((deleteProduct_frame s u id).2.1 e he)
    | createReview u input =>
      intro e he
      simp only [mutate] at he
      rw [(createReview_frame s u input).1] at he
      exact hinv e he
    | updateReview u id rt c =>
      intro e he
      simp only [mutate] at he
      rw [(updateReview_frame s u id rt c).1] at he
      exact hinv e he
    | deleteReview u id =>
      intro e he
      simp only [mutate] at he
      rw [(deleteReview_frame s u id).1] at he
      exact hinv e he
    | createOrder u items =>
      intro e he
      simp only [mutate] at he
      rcases createOrder_state s u items with h | ⟨uid, data, hu, hv, _, _, hprod⟩
      · rw [h] at he
        exact hinv e he
      · rw [hprod] at he
        rcases mem_writeProducts data s.products e he with h' | ⟨d, hd, he'⟩
        · exact hinv e h'
        · obtain ⟨_, hq, hsle, _⟩ := validateItems_ok_spec hv d hd
          rw [he']
          show 0 ≤ d.product.stock - d.quantity
          omega
  · intro s u input hstock
    simp only [mutate]
    unfold createProduct
    repeat' split
    all_goals exact ⟨_, rfl⟩
  · intro s u id input v hsv hv
    simp only [mutate]
    unfold updateProduct
    repeat' split
    all_goals try exact ⟨_, rfl⟩
    rename_i h
    exfalso
    apply h
    rw [hsv]
    simp only [negOpt, decide_eq_true_iff]
    exact hv

/-- Witness for C7: the invariant is preserved on the demo database by a
successful order, and negative stock inputs to product creation and update
are rejected. -/
theorem c7_stock_nonneg_witness :
    StockInv s0 ∧
    StockInv (mutate s0 (Op.createOrder (some 2) [⟨1, 1⟩])).1 ∧
    (∃ e, (mutate s0 (Op.createProduct (some 1) ⟨"x", 1, 5, -1, ""⟩)).2 = .error e) ∧
    (∃ e, (mutate s0 (Op.updateProduct (some 1) 1 ⟨none, none, some (-1), none⟩)).2 =
      .error e) :=
  ⟨by decide,
   c7_stock_nonneg.1 s0 (Op.createOrder (some 2) [⟨1, 1⟩]) (by decide),
   c7_stock_nonneg.2.1 s0 (some 1) ⟨"x", 1, 5, -1, ""⟩ (by decide),
   c7_stock_nonneg.2.2 s0 (some 1) 1 ⟨none, none, some (-1), none⟩ (-1) rfl (by decide)⟩

/-- Claim C6 counterexample: `UpdateProduct.mutate` with a stock value in
its input writes the product's stock directly (`graphql.py:392`): on the
demo database it changes product 1's stock from 1 to 5, so order placement
is NOT the only operation that writes stock. -/
theorem c6_counterexample :
    dbGet s0.products 1 = some demoProduct ∧ demoProduct.stock = 1 ∧
    dbGet (mutate s0 (Op.updateProduct (some 1) 1 ⟨none, none, some 5, none⟩)).1.products 1 =
      some ⟨"widget", 1, 100, 5, ""⟩ ∧ (5 : Int) ≠ (1 : Int) := by decide

/-- Claim C6 as amended: an existing product's stock is written only by
order placement's reservation decrement and by `UpdateProduct.mutate` when
its input carries a stock value; every other exposed operation (including
product creation, which only adds a new row, and `UpdateProduct` without a
stock field) leaves every existing product's stock unchanged. -/
theorem c6_amended (s : State) (op : Op)
    (hnd : (s.products.map Prod.fst).Nodup)
    (hws : writesStock op = false) (id : Nat) (p p' : Product)
    (h1 : dbGet s.products id = some p)
    (h2 : dbGet (mutate s op).1.products id = some p') :
    p'.stock = p.stock := by
  cases op with
  | createStore u n =>
    simp only [mutate] at h2
    rw [(createStore_frame s u n).1, h1] at h2
    injection h2 with h3
    rw [← h3]
  | updateStore u idn n =>
    simp only [mutate] at h2
    rw [(updateStore_frame s u idn n).1, h1] at h2
    injection h2 with h3
    rw [← h3]
  | deleteStore u idn =>
    simp only [mutate] at h2
    have hmem := (deleteStore_frame s u idn).2.1 _ (dbGet_mem h2)
    rw [nodup_keys_eq hnd hmem (dbGet_mem h1)]
  | createProduct u input =>
    simp only [mutate] at h2
    rcases (createProduct_frame s u input).1 with h | ⟨h, _⟩
    · rw [h, h1] at h2
      injection h2 with h3
      rw [← h3]
    · rw [h, dbGet_append _ h1] at h2
      injection h2 with h3
      rw [← h3]
  | updateProduct u idn input =>
    simp only [mutate] at h2
    have hnone : input.stock = none := by
      simp only [writesStock] at hws
      exact Option.not_isSome_iff_eq_none.mp (by simp [hws])
    rcases (updateProduct_frame s u idn input).1 with h | ⟨q, hget, _, _, h⟩
    · rw [h, h1] at h2
      injection h2 with h3
      rw [← h3]
    · by_cases hid : id = idn
      · subst hid
        rw [h, dbGet_dbSet_self _ hget] at h2
        injection h2 with h3
        rw [h1] at hget
        injection hget with h4
        rw [← h3]
        show input.stock.getD q.stock = p.stock
        rw [hnone, ← h4]
        rfl
      · rw [h, dbGet_dbSet_ne _ hid, h1] at h2
        injection h2 with h3
        rw [← h3]
  | deleteProduct u idn =>
    simp only [mutate] at h2
    have hmem := (deleteProduct_frame s u idn).2.1 _ (dbGet_mem h2)
    rw [nodup_keys_eq hnd hmem (dbGet_mem h1)]
  | createReview u input =>
    simp only [mutate] at h2
    rw [(createReview_frame s u input).1, h1] at h2
    injection h2 with h3
    rw [← h3]
  | updateReview u idn rt c =>
    simp only [mutate] at h2
    rw [(updateReview_frame s u idn rt c).1, h1] at h2
    injection h2 with h3
    rw [← h3]
  | deleteReview u idn =>
    simp only [mutate] at h2
    rw [(deleteReview_frame s u idn).1, h1] at h2
    injection h2 with h3
    rw [← h3]
  | createOrder u items =>
    exact absurd hws (by simp [writesStock])

/-- Witness for the amended C6: renaming product 1 through `UpdateProduct`
without a stock field leaves its stock at 1. -/
theorem c6_amended_witness :
    (Product.mk "renamed" 1 100 1 "").stock = demoProduct.stock :=
  c6_amended s0 (Op.updateProduct (some 1) 1 ⟨some "renamed", none, none, none⟩)
    (by decide) (by decide) 1 demoProduct (Product.mk "renamed" 1 100 1 "")
    (by decide) (by decide)

theorem c8_frame_eq {s s' : State}
    (hnd : (s.order_items.map Prod.fst).Nodup)
    (ho : s'.orders = s.orders) (hi : s'.order_items = s.order_items) :
    (∀ e ∈ s.orders, e ∈ s'.orders) ∧
    (∀ id it it', (id, it) ∈ s.order_items → (id, it') ∈ s'.order_items → it' = it) ∧
    (∀ e ∈ s.order_items, e ∈ s'.order_items) := by
  refine ⟨?_, ?_, ?_⟩
  · intro e he
    rw [ho]
    exact he
  · intro id it it' hin hin'
    rw [hi] at hin'
    exact nodup_keys_eq hnd hin' hin
  · intro e he
    rw [hi]
    exact he

theorem c8_frame_sub {s s' : State}
    (hnd : (s.order_items.map Prod.fst).Nodup)
    (ho : s'.orders = s.orders)
    (hsub : ∀ e ∈ s'.order_items, e ∈ s.order_items) :
    (∀ e ∈ s.orders, e ∈ s'.orders) ∧
    (∀ id it it', (id, it) ∈ s.order_items → (id, it') ∈ s'.order_items → it' = it) := by
  refine ⟨?_, ?_⟩
  · intro e he
    rw [ho]
    exact he
  · intro id it it' hin hin'
    exact nodup_keys_eq hnd (hsub _ hin') hin

/-- Claim C8 counterexample: `DeleteProduct.mutate` — an operation that is
neither an order update nor an order delete — removes a persisted
`OrderItem` row through the `on_delete=CASCADE` foreign key of
`models.py:38`: on the demo database with one committed order, deleting
product 1 empties the order-items table (the `Order` row itself stays). -/
theorem c8_counterexample :
    (1, (⟨1, 1, 1, 100⟩ : OrderItem)) ∈ s1cx.order_items ∧
    (mutate s1cx (Op.deleteProduct (some 1) 1)).1.order_items = [] ∧
    (mutate s1cx (Op.deleteProduct (some 1) 1)).1.orders = s1cx.orders := by decide

/-- Claim C8 as amended: no update or delete mutation for orders exists in
the schema's operation set; once committed, `Order` rows are never modified
or removed and `OrderItem` rows are never modified by any operation — but
`DeleteProduct.mutate` and `DeleteStore.mutate` can REMOVE `OrderItem` rows
referencing the deleted products (cascade delete); every other operation
leaves every persisted `OrderItem` row in place. -/
theorem c8_amended (s : State) (op : Op)
    (hnd : (s.order_items.map Prod.fst).Nodup)
    (hbound : ∀ e ∈ s.order_items, e.1 < s.next_order_item_id) :
    (∀ e ∈ s.orders, e ∈ (mutate s op).1.orders) ∧
    (∀ id it it', (id, it) ∈ s.order_items →
      (id, it') ∈ (mutate s op).1.order_items → it' = it) ∧
    (deletesCascade op = false → ∀ e ∈ s.order_items, e ∈ (mutate s op).1.order_items) := by
  cases op with
  | createStore u n =>
    obtain ⟨_, ho, hi⟩ := createStore_frame s u n
    obtain ⟨a, b, c⟩ := c8_frame_eq hnd ho hi
    exact ⟨a, b, fun _ => c⟩
  | updateStore u id n =>
    obtain ⟨_, ho, hi⟩ := updateStore_frame s u id n
    obtain ⟨a, b, c⟩ := c8_frame_eq hnd ho hi
    exact ⟨a, b, fun _ => c⟩
  | deleteStore u id =>
    obtain ⟨ho, _, hs⟩ := deleteStore_frame s u id
    obtain ⟨a, b⟩ := c8_frame_sub hnd ho hs
    exact ⟨a, b, fun hf => absurd hf (by simp [deletesCascade])⟩
  | createProduct u input =>
    obtain ⟨_, ho, hi⟩ := createProduct_frame s u input
    obtain ⟨a, b, c⟩ := c8_frame_eq hnd ho hi
    exact ⟨a, b, fun _ => c⟩
  | updateProduct u id input =>
    obtain ⟨_, ho, hi⟩ := updateProduct_frame s u id input
    obtain ⟨a, b, c⟩ := c8_frame_eq hnd ho hi
    exact ⟨a, b, fun _ => c⟩
  | deleteProduct u id =>
    obtain ⟨ho, _, hs⟩ := deleteProduct_frame s u id
    obtain ⟨a, b⟩ := c8_frame_sub hnd ho hs
    exact ⟨a, b, fun hf => absurd hf (by simp [deletesCascade])⟩
  | createReview u input =>
    obtain ⟨_, ho, hi⟩ := createReview_frame s u input
    obtain ⟨a, b, c⟩ := c8_frame_eq hnd ho hi
    exact ⟨a, b, fun _ => c⟩
  | updateReview u id rt c =>
    obtain ⟨_, ho, hi⟩ := updateReview_frame s u id rt c
    obtain ⟨a, b, c2⟩ := c8_frame_eq hnd ho hi
    exact ⟨a, b, fun _ => c2⟩
  | deleteReview u id =>
    obtain ⟨_, ho, hi⟩ := deleteReview_frame s u id
    obtain ⟨a, b, c⟩ := c8_frame_eq hnd ho hi
    exact ⟨a, b, fun _ => c⟩
  | createOrder u items =>
    rcases createOrder_state s u items with h |
      ⟨uid, data, hu, hv, ⟨extra, hitem, hfresh⟩, horders, _⟩
    · obtain ⟨a, b, c⟩ :=
        @c8_frame_eq s (createOrder s u items).1 hnd (by rw [h]) (by rw [h])
      exact ⟨a, b, fun _ => c⟩
    · refine ⟨?_, ?_, ?_⟩
      · intro e he
        show e ∈ (createOrder s u items).1.orders
        rw [horders]
        exact List.mem_append_left _ he
      · intro id it it' hin hin'
        have hin2 : (id, it') ∈ (createOrder s u items).1.order_items := hin'
        rw [hitem] at hin2
        rcases List.mem_append.mp hin2 with h' | h'
        · exact nodup_keys_eq hnd h' hin
        · exfalso
          have h1 := (hfresh _ h').1
          have h2 := hbound _ hin
          simp only at h1
          omega
      · intro _ e he
        show e ∈ (createOrder s u items).1.order_items
        rw [hitem]
        exact List.mem_append_left _ he

/-- Witness for the amended C8: on the demo database with a committed
order, creating a new store preserves the existing order row and its
item row. -/
theorem c8_amended_witness :
    (1, (⟨2, 100⟩ : Order)) ∈ (mutate s1cx (Op.createStore (some 1) "branch")).1.orders ∧
    (1, (⟨1, 1, 1, 100⟩ : OrderItem)) ∈
      (mutate s1cx (Op.createStore (some 1) "branch")).1.order_items :=
  ⟨(c8_amended s1cx (Op.createStore (some 1) "branch") (by decide) (by decide)).1
      (1, ⟨2, 100⟩) (by decide),
   (c8_amended s1cx (Op.createStore (some 1) "branch") (by decide) (by decide)).2.2
      (by decide) (1, ⟨1, 1, 1, 100⟩) (by decide)⟩

end Shop
